import Mathlib

/-!
Shallow embedding of the per-file blob metadata object BlobFile from
utilities/blob_db/blob_file.h of the rocksdb blob_db utility.

The inline member functions of the header (Immutable, Obsolete,
GetObsoleteSequence, ExtendExpirationRange, ExtendSequenceRange,
SetSequenceRange, SetHasTTL, SetCompression, SetFileSize, SetBlobCount,
set_expiration_range) are translated directly from the source. Member
functions whose bodies live in the engine sources that are not part of the
header (the constructor, MarkObsolete, NeedsFsync, Fsync, footer
finalization and the record-append bookkeeping path) are modelled from the
specification; each such definition is marked with a doc comment starting
with Modelled from the spec.

C++ assertions are modelled with Option: a result of none is an assertion
failure. uint64 counters wrap modulo 2 ^ 64 where they are incremented.
I/O handles, the parent pointer, path strings and the mutex carry no
lifecycle state and are omitted; the reader-writer lock and the atomic
orderings collapse in this sequential model, where every operation is a
function from state to state.
-/

namespace BlobDB

/-- Width of the uint64 machine integers used by the counters, sequence
numbers and expiration timestamps. -/
def U64 : Nat := 2 ^ 64

/-- Error conditions of the lifecycle operations, from section 7 of the
specification: InvalidState for an operation attempted in a disallowed
lifecycle phase, IOFailure for a failed footer write or fsync. -/
inductive BlobError where
  | invalidState
  | ioFailure
  deriving DecidableEq, Repr

/-- State of one BlobFile, mirroring the fields of blob_file.h lines 30-101.
Atomic fields and lock-guarded fields alike become plain fields of the
sequential state. Sequence numbers, sizes and expirations are uint64 values
represented as Nat. -/
structure BlobFile where
  file_number : Nat
  has_ttl : Bool
  compression : Nat
  blob_count : Nat
  gc_epoch : Int
  file_size : Nat
  deleted_count : Nat
  deleted_size : Nat
  closed : Bool
  obsolete : Bool
  obsolete_sequence : Nat
  gc_once_after_open : Bool
  expiration_range : Nat × Nat
  sequence_range : Nat × Nat
  last_access : Int
  last_fsync : Nat
  deriving DecidableEq, Repr

/-- Widening extension of a (min, max) pair by one value, the body shared by
ExtendExpirationRange (blob_file.h lines 159-162) and ExtendSequenceRange
(blob_file.h lines 170-173): the new first component is min of the old first
and the value, the new second is max of the old second and the value. -/
def extendRange (r : Nat × Nat) (v : Nat) : Nat × Nat :=
  (min r.1 v, max r.2 v)

/-- ExtendExpirationRange, blob_file.h lines 159-162. -/
def ExtendExpirationRange (s : BlobFile) (expiration : Nat) : BlobFile :=
  { s with expiration_range := extendRange s.expiration_range expiration }

/-- ExtendSequenceRange, blob_file.h lines 170-173. -/
def ExtendSequenceRange (s : BlobFile) (sequence : Nat) : BlobFile :=
  { s with sequence_range := extendRange s.sequence_range sequence }

/-- SetSequenceRange, blob_file.h lines 166-168: wholesale replacement of the
sequence range, with no widening comparison. -/
def SetSequenceRange (s : BlobFile) (r : Nat × Nat) : BlobFile :=
  { s with sequence_range := r }

/-- Immutable, blob_file.h line 144: true when the file takes no more
appends. -/
def Immutable (s : BlobFile) : Bool := s.closed

/-- Obsolete, blob_file.h lines 129-132. The assertion
assert(Immutable() || !obsolete_.load()) is modelled by returning none when
it fails. -/
def Obsolete (s : BlobFile) : Option Bool :=
  if Immutable s || !s.obsolete then some s.obsolete else none

/-- GetObsoleteSequence, blob_file.h lines 138-141. The assertion
assert(Obsolete()) fails both when the inner assertion of Obsolete fails and
when Obsolete returns false; both are modelled by none. -/
def GetObsoleteSequence (s : BlobFile) : Option Nat :=
  match Obsolete s with
  | some true => some s.obsolete_sequence
  | _ => none

/-- SetHasTTL, blob_file.h line 177. -/
def SetHasTTL (s : BlobFile) (b : Bool) : BlobFile := { s with has_ttl := b }

/-- SetCompression, blob_file.h lines 181-183; the compression kind is an
abstract code here. -/
def SetCompression (s : BlobFile) (c : Nat) : BlobFile :=
  { s with compression := c }

/-- SetFileSize, blob_file.h line 210. -/
def SetFileSize (s : BlobFile) (fs : Nat) : BlobFile := { s with file_size := fs }

/-- SetBlobCount, blob_file.h line 212. -/
def SetBlobCount (s : BlobFile) (bc : Nat) : BlobFile := { s with blob_count := bc }

/-- Private setter set_expiration_range, blob_file.h lines 205-207. -/
def set_expiration_range (s : BlobFile) (r : Nat × Nat) : BlobFile :=
  { s with expiration_range := r }

/-- Modelled from the spec: the BlobFile constructor body is not among the
sources (only blob_file.h is present). Section 4.1 of the specification has
all mutable fields start at zero, false or empty; the empty range is the one
that extension turns into the exact bounds of the appended values
(section 8), namely (2 ^ 64 - 1, 0) over uint64 values. -/
def mkBlobFile (fnum : Nat) (ttl : Bool) : BlobFile :=
  { file_number := fnum
    has_ttl := ttl
    compression := 0
    blob_count := 0
    gc_epoch := 0
    file_size := 0
    deleted_count := 0
    deleted_size := 0
    closed := false
    obsolete := false
    obsolete_sequence := 0
    gc_once_after_open := false
    expiration_range := (U64 - 1, 0)
    sequence_range := (U64 - 1, 0)
    last_access := 0
    last_fsync := 0 }

/-- Modelled from the spec: the append bookkeeping path record_append of
section 4.2 lives in the engine sources, not in blob_file.h. It fails with
InvalidState once closed is true, leaving the state untouched; otherwise it
increments blob_count, adds size to file_size (both uint64, wrapping),
extends sequence_range and, when has_ttl holds and a ttl is supplied,
expiration_range, through the extension members translated above. -/
def record_append (s : BlobFile) (size sequence : Nat) (ttl : Option Nat) :
    Except BlobError Unit × BlobFile :=
  if s.closed then (Except.error BlobError.invalidState, s)
  else
    let s1 : BlobFile :=
      { s with blob_count := (s.blob_count + 1) % U64
               file_size := (s.file_size + size) % U64 }
    let s2 := ExtendSequenceRange s1 sequence
    let s3 := match s.has_ttl, ttl with
      | true, some e => ExtendExpirationRange s2 e
      | _, _ => s2
    (Except.ok (), s3)

/-- Footer contents composed at finalization time, from sections 4.3 and 6
of the specification: final blob_count, sequence_range, expiration_range and
the ttl flag. -/
structure BlobLogFooter where
  blob_count : Nat
  sequence_range : Nat × Nat
  expiration_range : Nat × Nat
  has_ttl : Bool
  deriving DecidableEq, Repr

/-- Modelled from the spec: finalization (WriteFooterAndCloseLocked is only
declared at blob_file.h line 194; its body is not among the sources).
Section 4.3 and section 8: a call on an already closed file fails with
InvalidState and changes nothing; a failed footer write (the ok flag models
the I/O outcome) reports IOFailure and leaves the state untouched, closed
stays false, with no internal retry; a successful call composes the footer
from the current fields and then sets closed. -/
def finalize (s : BlobFile) (ok : Bool) :
    Except BlobError BlobLogFooter × BlobFile :=
  if s.closed then (Except.error BlobError.invalidState, s)
  else if !ok then (Except.error BlobError.ioFailure, s)
  else
    (Except.ok
      { blob_count := s.blob_count
        sequence_range := s.sequence_range
        expiration_range := s.expiration_range
        has_ttl := s.has_ttl },
     { s with closed := true })

/-- Modelled from the spec: the MarkObsolete body (declared at blob_file.h
line 136) is in the engine sources. Section 4.4: the precondition
closed == true is an assert-level invariant, modelled as none on failure; on
a closed file it stores the cutoff sequence and then sets obsolete. -/
def MarkObsolete (s : BlobFile) (sequence : Nat) : Option BlobFile :=
  if Immutable s then
    some { s with obsolete_sequence := sequence, obsolete := true }
  else none

/-- Modelled from the spec: Fsync (declared at blob_file.h line 149)
persists outstanding buffers and updates last_fsync to the current
file_size, per section 4.6. -/
def Fsync (s : BlobFile) : BlobFile := { s with last_fsync := s.file_size }

/-- Modelled from the spec: NeedsFsync (declared at blob_file.h line 147) is
a pure function of file_size - last_fsync compared against the byte
threshold, or always true when the force flag is set, per section 4.6. -/
def NeedsFsync (s : BlobFile) (force : Bool) (bytes_per_sync : Nat) : Bool :=
  force || decide (bytes_per_sync ≤ s.file_size - s.last_fsync)

/-- Fold of record_append over a list of (size, sequence, ttl) triples;
every record carries a ttl value, matching the file-level homogeneity
invariant of a ttl file. -/
def appendAll (s : BlobFile) : List (Nat × Nat × Nat) → BlobFile
  | [] => s
  | x :: xs => appendAll (record_append s x.1 x.2.1 (some x.2.2)).2 xs

/-- Mutating operations of the object, for reachability arguments: the
append path, finalization (with the I/O outcome of the footer write),
MarkObsolete, Fsync, and the setters of blob_file.h. -/
inductive Op where
  | append (size sequence : Nat) (ttl : Option Nat)
  | doFinalize (ok : Bool)
  | markObsolete (sequence : Nat)
  | doFsync
  | setSequenceRange (r : Nat × Nat)
  | extendSequenceRange (v : Nat)
  | extendExpirationRange (v : Nat)
  | setHasTTL (b : Bool)
  | setCompression (c : Nat)
  | setFileSize (n : Nat)
  | setBlobCount (n : Nat)
  | setExpirationRange (r : Nat × Nat)

/-- One operation applied to a state; none is an assertion failure. -/
def step (s : BlobFile) : Op → Option BlobFile
  | Op.append sz sq t => some (record_append s sz sq t).2
  | Op.doFinalize ok => some (finalize s ok).2
  | Op.markObsolete sq => MarkObsolete s sq
  | Op.doFsync => some (Fsync s)
  | Op.setSequenceRange r => some (SetSequenceRange s r)
  | Op.extendSequenceRange v => some (ExtendSequenceRange s v)
  | Op.extendExpirationRange v => some (ExtendExpirationRange s v)
  | Op.setHasTTL b => some (SetHasTTL s b)
  | Op.setCompression c => some (SetCompression s c)
  | Op.setFileSize n => some (SetFileSize s n)
  | Op.setBlobCount n => some (SetBlobCount s n)
  | Op.setExpirationRange r => some (set_expiration_range s r)

/-- A whole run of operations from a state; none as soon as an assertion
fails. -/
def run (s : BlobFile) : List Op → Option BlobFile
  | [] => some s
  | op :: ops =>
    match step s op with
    | some t => run t ops
    | none => none

/-- Minimum of a list of uint64 values, seeded with the head; on the empty
list it returns the empty-range lower seed. -/
def listMin : List Nat → Nat
  | [] => U64 - 1
  | v :: t => List.foldl min v t

/-- Maximum of a list of uint64 values, seeded with the head; on the empty
list it returns 0. -/
def listMax : List Nat → Nat
  | [] => 0
  | v :: t => List.foldl max v t

/-- A fold of min over a list lands in the seed or in the list. -/
theorem foldl_min_mem (t : List Nat) : ∀ a : Nat, List.foldl min a t ∈ a :: t := by
  induction t with
  | nil => intro a; simp
  | cons x xs ih =>
    intro a
    have h := ih (min a x)
    rcases List.mem_cons.mp h with h1 | h1
    · rw [List.foldl_cons, h1]
      rcases Nat.le_total a x with hax | hxa
      · rw [min_eq_left hax]; exact List.mem_cons_self a (x :: xs)
      · rw [min_eq_right hxa]
        exact List.mem_cons_of_mem a (List.mem_cons_self x xs)
    · exact List.mem_cons_of_mem a (List.mem_cons_of_mem x h1)

/-- A fold of min over a list is below the seed and below every element. -/
theorem foldl_min_le (t : List Nat) :
    ∀ a : Nat, List.foldl min a t ≤ a ∧ ∀ v ∈ t, List.foldl min a t ≤ v := by
  induction t with
  | nil => intro a; simp
  | cons x xs ih =>
    intro a
    refine ⟨le_trans (ih (min a x)).1 (min_le_left a x), ?_⟩
    intro v hv
    rcases List.mem_cons.mp hv with h1 | h1
    · subst h1; exact le_trans (ih (min a v)).1 (min_le_right a v)
    · exact (ih (min a x)).2 v h1

/-- A fold of max over a list lands in the seed or in the list. -/
theorem foldl_max_mem (t : List Nat) : ∀ a : Nat, List.foldl max a t ∈ a :: t := by
  induction t with
  | nil => intro a; simp
  | cons x xs ih =>
    intro a
    have h := ih (max a x)
    rcases List.mem_cons.mp h with h1 | h1
    · rw [List.foldl_cons, h1]
      rcases Nat.le_total a x with hax | hxa
      · rw [max_eq_right hax]
        exact List.mem_cons_of_mem a (List.mem_cons_self x xs)
      · rw [max_eq_left hxa]; exact List.mem_cons_self a (x :: xs)
    · exact List.mem_cons_of_mem a (List.mem_cons_of_mem x h1)

/-- A fold of max over a list is above the seed and above every element. -/
theorem foldl_max_ge (t : List Nat) :
    ∀ a : Nat, a ≤ List.foldl max a t ∧ ∀ v ∈ t, v ≤ List.foldl max a t := by
  induction t with
  | nil => intro a; simp
  | cons x xs ih =>
    intro a
    refine ⟨le_trans (le_max_left a x) (ih (max a x)).1, ?_⟩
    intro v hv
    rcases List.mem_cons.mp hv with h1 | h1
    · subst h1; exact le_trans (le_max_right a v) (ih (max a v)).1
    · exact (ih (max a x)).2 v h1

/-- On a nonempty list, listMin is an element and a lower bound: the exact
minimum. -/
theorem listMin_is_min (l : List Nat) (hne : l ≠ []) :
    listMin l ∈ l ∧ ∀ v ∈ l, listMin l ≤ v := by
  cases l with
  | nil => exact absurd rfl hne
  | cons x t =>
    refine ⟨foldl_min_mem t x, ?_⟩
    intro v hv
    rcases List.mem_cons.mp hv with h1 | h1
    · subst h1; exact (foldl_min_le t v).1
    · exact (foldl_min_le t x).2 v h1

/-- On a nonempty list, listMax is an element and an upper bound: the exact
maximum. -/
theorem listMax_is_max (l : List Nat) (hne : l ≠ []) :
    listMax l ∈ l ∧ ∀ v ∈ l, v ≤ listMax l := by
  cases l with
  | nil => exact absurd rfl hne
  | cons x t =>
    refine ⟨foldl_max_mem t x, ?_⟩
    intro v hv
    rcases List.mem_cons.mp hv with h1 | h1
    · subst h1; exact (foldl_max_ge t v).1
    · exact (foldl_max_ge t x).2 v h1

/-- On an open ttl file, one append leaves the lifecycle flags alone and
extends both ranges. -/
theorem record_append_open (s : BlobFile) (sz sq e : Nat)
    (h1 : s.closed = false) (h2 : s.has_ttl = true) :
    (record_append s sz sq (some e)).2.closed = false ∧
    (record_append s sz sq (some e)).2.has_ttl = true ∧
    (record_append s sz sq (some e)).2.sequence_range =
      extendRange s.sequence_range sq ∧
    (record_append s sz sq (some e)).2.expiration_range =
      extendRange s.expiration_range e := by
  simp [record_append, h1, h2, ExtendSequenceRange, ExtendExpirationRange]

/-- The ranges after a run of appends on an open ttl file are folds of the
extension over the appended sequence numbers and ttl values. -/
theorem appendAll_ranges (l : List (Nat × Nat × Nat)) :
    ∀ s : BlobFile, s.closed = false → s.has_ttl = true →
      (appendAll s l).sequence_range =
        (List.foldl min s.sequence_range.1 (l.map fun x => x.2.1),
         List.foldl max s.sequence_range.2 (l.map fun x => x.2.1)) ∧
      (appendAll s l).expiration_range =
        (List.foldl min s.expiration_range.1 (l.map fun x => x.2.2),
         List.foldl max s.expiration_range.2 (l.map fun x => x.2.2)) := by
  induction l with
  | nil => intro s _ _; simp [appendAll]
  | cons x xs ih =>
    intro s h1 h2
    obtain ⟨hc, ht, hsr, her⟩ := record_append_open s x.1 x.2.1 x.2.2 h1 h2
    have hrec := ih (record_append s x.1 x.2.1 (some x.2.2)).2 hc ht
    rw [appendAll] at *
    rw [hrec.1, hrec.2, hsr, her] at *
    simp [extendRange]

/-- Claim C1: for every nonempty finite sequence of record_append calls made
before finalize on a fresh ttl BlobFile, with uint64 inputs, the resulting
sequence_range equals the exact (minimum, maximum) of all appended sequence
numbers, and expiration_range equals the exact (minimum, maximum) of all
appended ttl values, each append extending the ranges via
ExtendSequenceRange and ExtendExpirationRange from the initial state of
construction. -/
theorem record_append_exact_ranges (fnum : Nat) (l : List (Nat × Nat × Nat))
    (hne : l ≠ [])
    (hbound : ∀ x ∈ l, x.2.1 < U64 ∧ x.2.2 < U64) :
    (appendAll (mkBlobFile fnum true) l).sequence_range =
      (listMin (l.map fun x => x.2.1), listMax (l.map fun x => x.2.1)) ∧
    (appendAll (mkBlobFile fnum true) l).expiration_range =
      (listMin (l.map fun x => x.2.2), listMax (l.map fun x => x.2.2)) := by
  cases l with
  | nil => exact absurd rfl hne
  | cons x t =>
    have h := appendAll_ranges (x :: t) (mkBlobFile fnum true) rfl rfl
    have hx := hbound x (List.mem_cons_self x t)
    have hsq : min (U64 - 1) x.2.1 = x.2.1 :=
      min_eq_right (Nat.le_pred_of_lt hx.1)
    have hex : min (U64 - 1) x.2.2 = x.2.2 :=
      min_eq_right (Nat.le_pred_of_lt hx.2)
    constructor
    · rw [h.1]
      simp [mkBlobFile, listMin, listMax, hsq, Nat.zero_max]
    · rw [h.2]
      simp [mkBlobFile, listMin, listMax, hex, Nat.zero_max]

/-- Claim C1 witness: the scenario of section 8 of the specification, with
sequences (5, 2, 9) and ttl values (100, 50, 200). -/
theorem record_append_exact_ranges_witness :
    (appendAll (mkBlobFile 7 true)
        [(10, 5, 100), (10, 2, 50), (10, 9, 200)]).sequence_range =
      (listMin ([(10, 5, 100), (10, 2, 50), (10, 9, 200)].map fun x => x.2.1),
       listMax ([(10, 5, 100), (10, 2, 50), (10, 9, 200)].map fun x => x.2.1)) ∧
    (appendAll (mkBlobFile 7 true)
        [(10, 5, 100), (10, 2, 50), (10, 9, 200)]).expiration_range =
      (listMin ([(10, 5, 100), (10, 2, 50), (10, 9, 200)].map fun x => x.2.2),
       listMax ([(10, 5, 100), (10, 2, 50), (10, 9, 200)].map fun x => x.2.2)) :=
  record_append_exact_ranges 7 [(10, 5, 100), (10, 2, 50), (10, 9, 200)]
    (by decide) (by decide)

/-- Claim C2: in every state with closed true, record_append fails with
InvalidState and the whole state, in particular blob_count, file_size and
the guarded ranges, is unchanged. -/
theorem record_append_after_close (s : BlobFile) (sz sq : Nat)
    (ttl : Option Nat) (h : s.closed = true) :
    (record_append s sz sq ttl).1 = Except.error BlobError.invalidState ∧
    (record_append s sz sq ttl).2 = s := by
  simp [record_append, h]

/-- Claim C2 witness: a closed fresh file rejects an append unchanged. -/
theorem record_append_after_close_witness :
    (record_append { mkBlobFile 3 false with closed := true } 10 4 none).1 =
      Except.error BlobError.invalidState ∧
    (record_append { mkBlobFile 3 false with closed := true } 10 4 none).2 =
      { mkBlobFile 3 false with closed := true } :=
  record_append_after_close { mkBlobFile 3 false with closed := true } 10 4
    none rfl

/-- An append never changes the closed and obsolete flags, in either
branch. -/
theorem record_append_flags (s : BlobFile) (sz sq : Nat) (t : Option Nat) :
    (record_append s sz sq t).2.closed = s.closed ∧
    (record_append s sz sq t).2.obsolete = s.obsolete := by
  cases h : s.closed <;> cases ht : s.has_ttl <;> cases t <;>
    simp [record_append, h, ht, ExtendSequenceRange, ExtendExpirationRange]

/-- Finalization never changes the obsolete flag and keeps a closed file
closed. -/
theorem finalize_flags (s : BlobFile) (ok : Bool) :
    (finalize s ok).2.obsolete = s.obsolete ∧
    (s.closed = true → (finalize s ok).2.closed = true) := by
  cases h : s.closed <;> cases ok <;> simp [finalize, h]

/-- Every operation preserves the invariant that an obsolete file is
closed. -/
theorem step_preserves_obsolete_closed (s t : BlobFile) (op : Op)
    (hinv : s.obsolete = true → s.closed = true) (h : step s op = some t) :
    t.obsolete = true → t.closed = true := by
  cases op with
  | append sz sq tl =>
    simp only [step, Option.some.injEq] at h
    subst h
    rw [(record_append_flags s sz sq tl).1, (record_append_flags s sz sq tl).2]
    exact hinv
  | doFinalize ok =>
    simp only [step, Option.some.injEq] at h
    subst h
    rw [(finalize_flags s ok).1]
    intro ho
    exact (finalize_flags s ok).2 (hinv ho)
  | markObsolete sq =>
    simp only [step, MarkObsolete, Immutable] at h
    cases hc : s.closed with
    | false => simp [hc] at h
    | true =>
      simp only [hc, eq_self_iff_true, if_true, Option.some.injEq] at h
      subst h
      intro _
      rfl
  | doFsync =>
    simp only [step, Option.some.injEq] at h
    subst h
    simpa [Fsync] using hinv
  | setSequenceRange r =>
    simp only [step, Option.some.injEq] at h
    subst h
    simpa [SetSequenceRange] using hinv
  | extendSequenceRange v =>
    simp only [step, Option.some.injEq] at h
    subst h
    simpa [ExtendSequenceRange] using hinv
  | extendExpirationRange v =>
    simp only [step, Option.some.injEq] at h
    subst h
    simpa [ExtendExpirationRange] using hinv
  | setHasTTL b =>
    simp only [step, Option.some.injEq] at h
    subst h
    simpa [SetHasTTL] using hinv
  | setCompression c =>
    simp only [step, Option.some.injEq] at h
    subst h
    simpa [SetCompression] using hinv
  | setFileSize n =>
    simp only [step, Option.some.injEq] at h
    subst h
    simpa [SetFileSize] using hinv
  | setBlobCount n =>
    simp only [step, Option.some.injEq] at h
    subst h
    simpa [SetBlobCount] using hinv
  | setExpirationRange r =>
    simp only [step, Option.some.injEq] at h
    subst h
    simpa [set_expiration_range] using hinv

/-- The invariant that an obsolete file is closed is preserved by whole
runs. -/
theorem run_preserves_obsolete_closed (ops : List Op) :
    ∀ s t : BlobFile, (s.obsolete = true → s.closed = true) →
      run s ops = some t → t.obsolete = true → t.closed = true := by
  induction ops with
  | nil =>
    intro s t hinv h
    simp only [run, Option.some.injEq] at h
    subst h
    exact hinv
  | cons op ops ih =>
    intro s t hinv h
    rw [run] at h
    cases hs : step s op with
    | none => rw [hs] at h; exact absurd h (by simp)
    | some u =>
      rw [hs] at h
      exact ih u t (step_preserves_obsolete_closed s u op hinv hs) h

/-- Claim C3: in every state reachable from construction by the operations
of the object (the append path, finalization, MarkObsolete, Fsync and the
setters), obsolete true implies closed true; MarkObsolete on a non-closed
state is an assertion failure in the model, so a non-closed file can never
become obsolete. -/
theorem obsolete_implies_closed (fnum : Nat) (ttl : Bool) (ops : List Op)
    (s : BlobFile) (hrun : run (mkBlobFile fnum ttl) ops = some s)
    (hobs : s.obsolete = true) : s.closed = true :=
  run_preserves_obsolete_closed ops (mkBlobFile fnum ttl) s
    (by simp [mkBlobFile]) hrun hobs

/-- Claim C3 witness: a run that finalizes and then marks obsolete reaches a
state that is obsolete, and the theorem yields that it is closed. -/
theorem obsolete_implies_closed_witness :
    ({ mkBlobFile 1 false with
        closed := true, obsolete := true, obsolete_sequence := 5 } :
      BlobFile).closed = true :=
  obsolete_implies_closed 1 false [Op.doFinalize true, Op.markObsolete 5]
    { mkBlobFile 1 false with
        closed := true, obsolete := true, obsolete_sequence := 5 }
    (by decide) (by decide)

/-- Claim C4: on every closed file and every sequence number, MarkObsolete
succeeds, and in the resulting state Obsolete returns true and
GetObsoleteSequence returns exactly the given sequence; in the sequential
model the two are observed together by any subsequent reader. -/
theorem markObsolete_observable (s : BlobFile) (q : Nat)
    (h : s.closed = true) :
    ((MarkObsolete s q).bind Obsolete = some true) ∧
    ((MarkObsolete s q).bind GetObsoleteSequence = some q) := by
  simp [MarkObsolete, Immutable, h, Obsolete, GetObsoleteSequence]

/-- Claim C4 witness: MarkObsolete at sequence 10 on a closed fresh file. -/
theorem markObsolete_observable_witness :
    ((MarkObsolete { mkBlobFile 4 false with closed := true } 10).bind
        Obsolete = some true) ∧
    ((MarkObsolete { mkBlobFile 4 false with closed := true } 10).bind
        GetObsoleteSequence = some 10) :=
  markObsolete_observable { mkBlobFile 4 false with closed := true } 10 rfl

/-- Claim C5 counterexample: SetSequenceRange is an operation of the object
that touches sequence_range before finalization and shrinks it: on a
non-closed file whose sequence range is (0, 100), SetSequenceRange with
(5, 5) produces a range that does not contain the previous one. -/
theorem setSequenceRange_shrinks :
    (ExtendSequenceRange (ExtendSequenceRange (mkBlobFile 1 false) 0)
        100).closed = false ∧
    ¬ ((SetSequenceRange
          (ExtendSequenceRange (ExtendSequenceRange (mkBlobFile 1 false) 0)
            100) (5, 5)).sequence_range.1 ≤
        (ExtendSequenceRange (ExtendSequenceRange (mkBlobFile 1 false) 0)
            100).sequence_range.1 ∧
       (ExtendSequenceRange (ExtendSequenceRange (mkBlobFile 1 false) 0)
            100).sequence_range.2 ≤
        (SetSequenceRange
          (ExtendSequenceRange (ExtendSequenceRange (mkBlobFile 1 false) 0)
            100) (5, 5)).sequence_range.2) := by
  decide

/-- Claim C5 (amended): until finalized, the range-extending operations of
the object, ExtendSequenceRange, ExtendExpirationRange and the append path
built on them, only widen the bounds: the new minimum is at most the old
minimum and the new maximum is at least the old maximum; SetSequenceRange
and set_expiration_range, by contrast, replace the range wholesale and may
shrink it. -/
theorem extend_ops_only_widen (s : BlobFile) (v sz sq : Nat)
    (t : Option Nat) :
    ((ExtendSequenceRange s v).sequence_range.1 ≤ s.sequence_range.1 ∧
     s.sequence_range.2 ≤ (ExtendSequenceRange s v).sequence_range.2) ∧
    ((ExtendExpirationRange s v).expiration_range.1 ≤ s.expiration_range.1 ∧
     s.expiration_range.2 ≤ (ExtendExpirationRange s v).expiration_range.2) ∧
    ((record_append s sz sq t).2.sequence_range.1 ≤ s.sequence_range.1 ∧
     s.sequence_range.2 ≤ (record_append s sz sq t).2.sequence_range.2) ∧
    ((record_append s sz sq t).2.expiration_range.1 ≤ s.expiration_range.1 ∧
     s.expiration_range.2 ≤ (record_append s sz sq t).2.expiration_range.2) := by
  refine ⟨⟨min_le_left _ _, le_max_left _ _⟩,
          ⟨min_le_left _ _, le_max_left _ _⟩, ?_, ?_⟩ <;>
  · cases h : s.closed <;> cases ht : s.has_ttl <;> cases t <;>
      simp [record_append, h, ht, ExtendSequenceRange, ExtendExpirationRange,
            extendRange, min_le_left, le_max_left]

/-- Claim C6: range extension computes new_min = min(old_min, value) and
new_max = max(old_max, value); as a binary operation on range and value it
widens monotonically, commutes across two extensions, and is idempotent on
repeated equal input. -/
theorem extendRange_minmax_comm_idem (r : Nat × Nat) (v a b : Nat) :
    extendRange r v = (min r.1 v, max r.2 v) ∧
    extendRange (extendRange r a) b = extendRange (extendRange r b) a ∧
    extendRange (extendRange r v) v = extendRange r v ∧
    (extendRange r v).1 ≤ r.1 ∧ r.2 ≤ (extendRange r v).2 := by
  refine ⟨rfl, ?_, ?_, min_le_left _ _, le_max_left _ _⟩
  · simp [extendRange, min_right_comm, sup_right_comm]
  · simp [extendRange, min_assoc, max_assoc, min_self, max_self]

/-- Claim C7: finalize completes successfully at most once: any call on an
already-closed file fails with InvalidState and leaves the entire state
unchanged, whatever the I/O outcome would have been. -/
theorem finalize_at_most_once (s : BlobFile) (ok : Bool)
    (h : s.closed = true) :
    (finalize s ok).1 = Except.error BlobError.invalidState ∧
    (finalize s ok).2 = s := by
  simp [finalize, h]

/-- Claim C7 witness: a successful finalize of a fresh file followed by a
second finalize, which fails and changes nothing. -/
theorem finalize_at_most_once_witness :
    (finalize ((finalize (mkBlobFile 2 false) true).2) true).1 =
      Except.error BlobError.invalidState ∧
    (finalize ((finalize (mkBlobFile 2 false) true).2) true).2 =
      (finalize (mkBlobFile 2 false) true).2 :=
  finalize_at_most_once ((finalize (mkBlobFile 2 false) true).2) true rfl

/-- Claim C8: when the footer write fails with an I/O error on a
not-yet-closed file, finalize reports IOFailure and the in-memory state is
exactly the pre-state: closed stays false, so a retry by the caller starts
from the same state; no internal retry is modelled. -/
theorem finalize_io_failure_safe (s : BlobFile) (h : s.closed = false) :
    (finalize s false).1 = Except.error BlobError.ioFailure ∧
    (finalize s false).2 = s ∧
    (finalize s false).2.closed = false := by
  simp [finalize, h]

/-- Claim C8 witness: a failed footer write on a fresh ttl file. -/
theorem finalize_io_failure_safe_witness :
    (finalize (mkBlobFile 6 true) false).1 =
      Except.error BlobError.ioFailure ∧
    (finalize (mkBlobFile 6 true) false).2 = mkBlobFile 6 true ∧
    (finalize (mkBlobFile 6 true) false).2.closed = false :=
  finalize_io_failure_safe (mkBlobFile 6 true) rfl

/-- Claim C9: for every state and every threshold, NeedsFsync with the force
flag returns true, and without it returns true exactly when
file_size - last_fsync is at least the threshold. -/
theorem needsFsync_spec (s : BlobFile) (T : Nat) :
    NeedsFsync s true T = true ∧
    (NeedsFsync s false T = true ↔ T ≤ s.file_size - s.last_fsync) := by
  constructor
  · rfl
  · simp [NeedsFsync]

/-- Claim C10: GetObsoleteSequence has the precondition that the file has
been marked obsolete: in every state with obsolete true and closed true the
assertions inside GetObsoleteSequence and Obsolete cannot fire and the
stored obsolete_sequence is returned; in every state with obsolete false the
call is an assertion failure, modelled as none, rather than a value. -/
theorem getObsoleteSequence_contract (s : BlobFile) :
    (s.obsolete = true → s.closed = true →
      GetObsoleteSequence s = some s.obsolete_sequence) ∧
    (s.obsolete = false → GetObsoleteSequence s = none) := by
  constructor
  · intro h1 h2
    simp [GetObsoleteSequence, Obsolete, Immutable, h1, h2]
  · intro h1
    simp [GetObsoleteSequence, Obsolete, Immutable, h1]

/-- Claim C10 witness: an obsolete closed file returns its stored sequence;
a fresh file fails the assertion. -/
theorem getObsoleteSequence_contract_witness :
    GetObsoleteSequence
        { mkBlobFile 8 false with
            closed := true, obsolete := true, obsolete_sequence := 11 } =
      some ({ mkBlobFile 8 false with
            closed := true, obsolete := true, obsolete_sequence := 11 } :
          BlobFile).obsolete_sequence ∧
    GetObsoleteSequence (mkBlobFile 8 false) = none :=
  ⟨(getObsoleteSequence_contract
      { mkBlobFile 8 false with
          closed := true, obsolete := true, obsolete_sequence := 11 }).1
      rfl rfl,
   (getObsoleteSequence_contract (mkBlobFile 8 false)).2 rfl⟩

end BlobDB
